import Mathlib

/-!
Verification of the hostd-pin repository: a daemon that pins a host's
storage, ingress and egress prices to fiat targets.

Embedding notes:
* `decimal.Decimal` (shopspring, arbitrary-precision decimals) is modelled
  as the exact rationals `ℚ`; `Add`, `Sub`, `Mul`, `Abs`, `GreaterThan`
  are the exact rational operations, and `Div` is exact rational division.
* Go durations are nanosecond counts, modelled as `ℕ`; Go integer division
  of positive durations is `ℕ` floor division.
* Fallible Go calls are `Except`; a Go `panic` is modelled as an explicit
  outcome constructor, distinct from a returned error.
* `types.Currency` (sia, unsigned 128-bit) is modelled as `ℕ`;
  `ParseCurrency` of an integer string succeeds exactly on values in
  `[0, 2^128)`; `Currency.Div64` is `ℕ` floor division.
-/

namespace HostdPin

abbrev Decimal := ℚ

/-! ## rate/averager.go -/

/-- The mutable fields of `rate.Averager` protected by its mutex:
the sample buffer `rates` and the cached `average`. -/
structure AveragerState where
  rates : List Decimal
  average : Decimal
deriving DecidableEq

/-- State produced by `rate.New`: both `rates` (nil slice) and `average`
are Go zero values; the zero value of `decimal.Decimal` is `0`. -/
def initialState : AveragerState := { rates := [], average := 0 }

/-- `48 * time.Hour` in nanoseconds. -/
def window : ℕ := 172800000000000

/-- `maxRates := int(48 * time.Hour / ra.frequency)` for a positive
`frequency`, in nanoseconds: floor division. -/
def maxRates (frequency : ℕ) : ℕ := window / frequency

/-- `getExchangeRate`: asks the SiaCentral client for the rate table and
looks up the configured currency.  The collaborator's answer is passed in
as `api` (either a transport error or a rate table). -/
def getExchangeRate (api : Except Unit (List (String × Decimal)))
    (currency : String) : Except Unit Decimal :=
  match api with
  | .error _ => .error ()
  | .ok rates =>
    match rates.lookup currency with
    | none => .error ()
    | some rate => .ok rate

/-- Outcome of one `Averager.Update` call. -/
inductive UpdateOutcome where
  /-- `Update` returned the fresh rate and left the state `s`. -/
  | ok (rate : Decimal) (s : AveragerState)
  /-- `Update` returned a wrapped error; `s` is the state it left. -/
  | err (s : AveragerState)
  /-- `Update` panicked (division by zero recomputing the mean);
  `s` is the state at the moment of the panic. -/
  | panic (s : AveragerState)
deriving DecidableEq

/-- The buffer mutation inside `Update`: append the fresh sample, then
drop the oldest (`ra.rates = ra.rates[1:]`) when the cap is exceeded. -/
def updateRates (m : ℕ) (rates : List Decimal) (rate : Decimal) :
    List Decimal :=
  let rs := rates ++ [rate]
  if rs.length > m then rs.tail else rs

/-- `Averager.Update` given the quote collaborator's answer `quote`:
on a quote error it returns the wrapped error and mutates nothing;
otherwise it appends the sample, evicts the oldest past the cap, and
recomputes `average` as sum of samples over count — Go panics there if
the buffer is empty (`decimal.Div` by zero). -/
def updateWith (m : ℕ) (quote : Except Unit Decimal) (s : AveragerState) :
    UpdateOutcome :=
  match quote with
  | .error _ => .err s
  | .ok rate =>
    let rs := updateRates m s.rates rate
    if rs.length = 0 then .panic { s with rates := rs }
    else .ok rate { rates := rs, average := rs.sum / (rs.length : Decimal) }

/-- `Averager.Update` end to end: fetch the exchange rate, then fold it
into the state. -/
def update (m : ℕ) (api : Except Unit (List (String × Decimal)))
    (currency : String) (s : AveragerState) : UpdateOutcome :=
  updateWith m (getExchangeRate api currency) s

/-- `Averager.Rate`: returns the cached average. -/
def Rate (s : AveragerState) : Decimal := s.average

/-- The state reached after one refresh with sample `r` (all outcome
constructors carry the state they leave behind). -/
def stepState (m : ℕ) (s : AveragerState) (r : Decimal) : AveragerState :=
  match updateWith m (.ok r) s with
  | .ok _ s' => s'
  | .err s' => s'
  | .panic s' => s'

/-- The state after a sequence of refreshes whose quotes are `samples`. -/
def runUpdates (m : ℕ) (samples : List Decimal) (s : AveragerState) :
    AveragerState :=
  samples.foldl (stepState m) s

/-! ## cmd/hpind/main.go -/

/-- A host that should have its prices updated. -/
structure Host where
  address : String
  password : String
deriving DecidableEq

/-- The target prices for the host. -/
structure Prices where
  storage : Decimal
  ingress : Decimal
  egress : Decimal
deriving DecidableEq

/-- `isOverThreshold(a, b, percentage)`:
`threshold := a.Mul(percentage)`, `diff := a.Sub(b).Abs()`, and the
result is `diff.GreaterThan(threshold)`. -/
def isOverThreshold (a b percentage : Decimal) : Bool :=
  let threshold := a * percentage
  let diff := |a - b|
  decide (diff > threshold)

/-- shopspring `Decimal.Round(0)`: round to an integer, half away from
zero. -/
def roundHalfAwayFromZero (q : ℚ) : ℤ :=
  if 0 ≤ q then ⌊q + 1 / 2⌋ else -⌊-q + 1 / 2⌋

/-- sia `types.ParseCurrency` on the string of an integer: succeeds
exactly on values representable in an unsigned 128-bit `Currency`. -/
def ParseCurrency (n : ℤ) : Option ℕ :=
  if 0 ≤ n ∧ n < 2 ^ 128 then some n.toNat else none

/-- `convertToCurrency`:
`target.Div(rate).Mul(decimal.New(1, 24)).Round(0).String()` fed to
`types.ParseCurrency`; `none` models the `panic(err)` branch. -/
def convertToCurrency (target rate : Decimal) : Option ℕ :=
  ParseCurrency (roundHalfAwayFromZero (target / rate * 10 ^ 24))

/-- The per-host loop body of `updateHosts`: each host's
`client.UpdateSettings` answer is given by `call`.  Returns the round's
result (`fmt.Errorf("failed to update host %q: %w", ...)` is modelled as
the pair of address and wrapped error) together with the list of hosts
whose update call was actually made.  The Go loop returns on the first
error, so hosts after it are never called. -/
def updateHostsLoop (call : Host → Except String Unit) :
    List Host → Except (String × String) Unit × List Host
  | [] => (.ok (), [])
  | h :: rest =>
    match call h with
    | .error e => (.error (h.address, e), [h])
    | .ok _ =>
      let (res, called) := updateHostsLoop call rest
      (res, h :: called)

/-- The three per-unit prices computed at the top of `updateHosts`:
`convertToCurrency(target.X, rate)` then `Div64(4320).Div64(1e12)` for
storage and `Div64(1e12)` for ingress and egress; `none` when a
conversion panics. -/
def hostPrices (target : Prices) (rate : Decimal) : Option (ℕ × ℕ × ℕ) :=
  match convertToCurrency target.storage rate with
  | none => none
  | some storage =>
    match convertToCurrency target.ingress rate with
    | none => none
    | some ingress =>
      match convertToCurrency target.egress rate with
      | none => none
      | some egress =>
        some (storage / 4320 / 10 ^ 12, ingress / 10 ^ 12, egress / 10 ^ 12)

/-- How an `updateHosts` round ends. -/
inductive RoundOutcome where
  /-- Every endpoint call succeeded; `updateHosts` returned nil. -/
  | ok
  /-- `updateHosts` returned an error (the caller logs it and keeps
  running). -/
  | errored (e : String × String)
  /-- `convertToCurrency` panicked: the process dies. -/
  | panicked
deriving DecidableEq

/-- `updateHosts` end to end: convert the three prices (a conversion
failure panics before any endpoint is contacted), then run the per-host
loop. -/
def updateHosts (call : Host → Except String Unit) (hosts : List Host)
    (target : Prices) (rate : Decimal) : RoundOutcome :=
  match hostPrices target rate with
  | none => .panicked
  | some _ =>
    match (updateHostsLoop call hosts).1 with
    | .error e => .errored e
    | .ok _ => .ok

/-- One iteration of the ticker loop in `main`: read the averaged
`average`, skip when the threshold test does not fire (`none` outcome),
otherwise assign `lastRate = average` and only then call `updateHosts`,
whose error is logged but not acted on.  Returns the new baseline and
the round's outcome. -/
def mainRound (call : Host → Except String Unit) (hosts : List Host)
    (target : Prices) (threshold lastRate average : Decimal) :
    Decimal × Option RoundOutcome :=
  if isOverThreshold lastRate average threshold then
    (average, some (updateHosts call hosts target average))
  else
    (lastRate, none)

/-! ## Helper lemmas about the sample buffer -/

theorem updateRates_eq_drop (m : ℕ) (rates : List Decimal) (rate : Decimal)
    (h : rates.length ≤ m) :
    updateRates m rates rate
      = (rates ++ [rate]).drop (rates.length + 1 - m) := by
  unfold updateRates
  simp only [List.length_append, List.length_singleton]
  by_cases hc : rates.length + 1 > m
  · have h1 : rates.length + 1 - m = 1 := by omega
    simp [hc, h1, List.drop_one]
  · have h0 : rates.length + 1 - m = 0 := by omega
    simp [hc, h0]

theorem updateRates_ne_nil (m : ℕ) (hm : 1 ≤ m) (rates : List Decimal)
    (rate : Decimal) : (updateRates m rates rate).length ≠ 0 := by
  unfold updateRates
  by_cases hc : (rates ++ [rate]).length > m
  · rw [if_pos hc]
    rw [List.length_tail]
    simp only [List.length_append, List.length_singleton] at hc ⊢
    omega
  · rw [if_neg hc]
    simp

theorem updateWith_ok_total (m : ℕ) (hm : 1 ≤ m) (s : AveragerState)
    (r : Decimal) :
    updateWith m (.ok r) s
      = .ok r ⟨updateRates m s.rates r,
          (updateRates m s.rates r).sum
            / ((updateRates m s.rates r).length : Decimal)⟩ := by
  simp only [updateWith]
  rw [if_neg (updateRates_ne_nil m hm s.rates r)]

theorem updateWith_err_iff (m : ℕ) (quote : Except Unit Decimal)
    (s s' : AveragerState) :
    updateWith m quote s = .err s' ↔ s' = s ∧ quote = .error () := by
  cases quote with
  | error e =>
    cases e
    simp only [updateWith, and_true]
    constructor
    · intro h
      injection h with h'
      exact h'.symm
    · intro h
      rw [h]
  | ok r =>
    simp only [updateWith]
    constructor
    · intro h
      by_cases hc : (updateRates m s.rates r).length = 0
      · rw [if_pos hc] at h
        exact absurd h (by simp)
      · rw [if_neg hc] at h
        exact absurd h (by simp)
    · rintro ⟨-, h⟩
      exact absurd h (by simp)

theorem stepState_rates (m : ℕ) (s : AveragerState) (r : Decimal) :
    (stepState m s r).rates = updateRates m s.rates r := by
  unfold stepState
  simp only [updateWith]
  by_cases hc : (updateRates m s.rates r).length = 0
  · rw [if_pos hc]
  · rw [if_neg hc]

theorem append_drop (L rest : List Decimal) (d : ℕ) (hd : d ≤ L.length) :
    (L ++ rest).drop d = L.drop d ++ rest := by
  rw [List.drop_append_eq_append_drop, Nat.sub_eq_zero_of_le hd,
    List.drop_zero]

theorem runUpdates_rates (m : ℕ) (samples : List Decimal) :
    ∀ s : AveragerState, s.rates.length ≤ m →
      (runUpdates m samples s).rates
        = (s.rates ++ samples).drop (s.rates.length + samples.length - m) := by
  induction samples with
  | nil =>
    intro s h
    have h0 : s.rates.length - m = 0 := Nat.sub_eq_zero_of_le h
    simp [runUpdates, h0]
  | cons r rest ih =>
    intro s h
    have hstep : runUpdates m (r :: rest) s
        = runUpdates m rest (stepState m s r) := rfl
    have hrates : (stepState m s r).rates
        = (s.rates ++ [r]).drop (s.rates.length + 1 - m) :=
      (stepState_rates m s r).trans (updateRates_eq_drop m s.rates r h)
    have hlen' : (stepState m s r).rates.length ≤ m := by
      rw [hrates, List.length_drop]
      simp only [List.length_append, List.length_singleton]
      omega
    rw [hstep, ih _ hlen', hrates]
    have hd : s.rates.length + 1 - m ≤ (s.rates ++ [r]).length := by
      simp only [List.length_append, List.length_singleton]
      omega
    rw [List.length_drop, ← append_drop _ _ _ hd, List.drop_drop,
      List.append_assoc, List.singleton_append]
    congr 1
    simp only [List.length_append, List.length_singleton, List.length_cons,
      List.length_nil]
    omega

/-! ## Claim theorems -/

/-- C1: with capacity `floor(window / frequency)` at least one, every
refresh succeeds, and over any sequence of refreshes from a fresh
averager the buffer length never exceeds the capacity and the buffer is
exactly the most recent `capacity` samples in arrival order (strict FIFO
eviction of the oldest). -/
theorem C1_buffer_fifo (frequency : ℕ) (samples : List Decimal)
    (hcap : 1 ≤ maxRates frequency) :
    (∀ (s : AveragerState) (r : Decimal), ∃ s',
        updateWith (maxRates frequency) (.ok r) s = .ok r s')
    ∧ (runUpdates (maxRates frequency) samples initialState).rates.length
        ≤ maxRates frequency
    ∧ (runUpdates (maxRates frequency) samples initialState).rates
        = samples.drop (samples.length - maxRates frequency) := by
  have hrun : (runUpdates (maxRates frequency) samples initialState).rates
      = samples.drop (samples.length - maxRates frequency) := by
    have h := runUpdates_rates (maxRates frequency) samples initialState
      (by simp [initialState])
    simpa [initialState] using h
  refine ⟨?_, ?_, hrun⟩
  · intro s r
    exact ⟨_, updateWith_ok_total (maxRates frequency) hcap s r⟩
  · rw [hrun, List.length_drop]
    omega

/-- C1 witness: with a 5-minute frequency (capacity 576), three
refreshes leave exactly the three samples in arrival order. -/
theorem C1_buffer_fifo_witness :
    (runUpdates (maxRates 300000000000) [(3 : ℚ), 7, 11]
        initialState).rates
      = [(3 : ℚ), 7, 11] := by
  rw [(C1_buffer_fifo 300000000000 [(3 : ℚ), 7, 11] (by decide)).2.2]
  decide

/-- C2: after every successful refresh the cached average equals the sum
of the buffered samples divided by their count, and a refresh that fails
on the quote leaves both the buffer and the cached average unchanged. -/
theorem C2_mean_after_update (m : ℕ) (s : AveragerState) :
    (∀ (quote : Except Unit Decimal) (r : Decimal) (s' : AveragerState),
        updateWith m quote s = .ok r s' →
        s'.average = s'.rates.sum / (s'.rates.length : Decimal))
    ∧ updateWith m (.error ()) s = .err s := by
  constructor
  · intro quote r s' hok
    cases quote with
    | error e => exact absurd hok (by simp [updateWith])
    | ok r' =>
      simp only [updateWith] at hok
      by_cases hc : (updateRates m s.rates r').length = 0
      · rw [if_pos hc] at hok
        exact absurd hok (by simp)
      · rw [if_neg hc] at hok
        rw [UpdateOutcome.ok.injEq] at hok
        rw [← hok.2]
  · rfl

/-- C2 witness: one successful refresh with sample 3 on a fresh averager
caches average 3, the sum of the one-sample buffer over its length. -/
theorem C2_mean_after_update_witness :
    (⟨[(3 : ℚ)], 3⟩ : AveragerState).average
      = ([(3 : ℚ)]).sum / (([(3 : ℚ)]).length : ℚ) :=
  (C2_mean_after_update 2 initialState).1 (.ok 3) 3 ⟨[3], 3⟩
    (by simp [updateWith, updateRates, initialState])

/-- C3: isOverThreshold holds exactly when the absolute difference
strictly exceeds baseline times threshold; equality at the limit does
not trigger; ShouldAct(100, 109, 0.1) is false and
ShouldAct(100, 111, 0.1) is true. -/
theorem C3_threshold_rule (a b p : Decimal) :
    (isOverThreshold a b p = true ↔ |a - b| > a * p)
    ∧ (|a - b| = a * p → isOverThreshold a b p = false)
    ∧ isOverThreshold 100 109 (1 / 10) = false
    ∧ isOverThreshold 100 111 (1 / 10) = true := by
  refine ⟨?_, ?_, by norm_num [isOverThreshold], by norm_num [isOverThreshold]⟩
  · simp [isOverThreshold]
  · intro hEq
    simp [isOverThreshold, hEq]

/-- C3 witness: diff exactly equal to the limit (10 = 100 × 0.1) does
not trigger. -/
theorem C3_threshold_rule_witness :
    isOverThreshold 100 110 (1 / 10) = false :=
  (C3_threshold_rule 100 110 (1 / 10)).2.1 (by norm_num)

/-- C6: whenever the threshold test fires, the new baseline is the
snapshot used for that round, for every combination of endpoint call
outcomes — including a round where every endpoint call fails. -/
theorem C6_baseline_advances (call : Host → Except String Unit)
    (hosts : List Host) (target : Prices)
    (threshold lastRate average : Decimal)
    (hfire : isOverThreshold lastRate average threshold = true) :
    (mainRound call hosts target threshold lastRate average).1
      = average := by
  simp [mainRound, hfire]

/-- C6 witness: a round whose only endpoint call fails still moves the
baseline from 100 to the snapshot 111. -/
theorem C6_baseline_advances_witness :
    (mainRound (fun _ => .error "connection refused") [⟨"h1", "p1"⟩]
        ⟨1, 1, 1⟩ (1 / 10) 100 111).1 = 111 :=
  C6_baseline_advances (fun _ => .error "connection refused")
    [⟨"h1", "p1"⟩] ⟨1, 1, 1⟩ (1 / 10) 100 111 (by norm_num [isOverThreshold])

/-- C7: Update returns an error exactly when the quote collaborator errs
or the configured currency is absent from its table — both causes
surface as the one error outcome — and on that failure the state is
unchanged. -/
theorem C7_update_failure (m : ℕ)
    (api : Except Unit (List (String × Decimal))) (currency : String)
    (s s' : AveragerState) :
    (update m api currency s = .err s'
      ↔ s' = s ∧ getExchangeRate api currency = .error ())
    ∧ (getExchangeRate api currency = .error ()
      ↔ api = .error ()
        ∨ ∃ rates, api = .ok rates ∧ rates.lookup currency = none) := by
  constructor
  · unfold update
    exact updateWith_err_iff m (getExchangeRate api currency) s s'
  · cases api with
    | error e =>
      cases e
      simp [getExchangeRate]
    | ok rates =>
      cases hl : rates.lookup currency with
      | none =>
        simp only [getExchangeRate, hl]
        constructor
        · intro _
          exact Or.inr ⟨rates, rfl, hl⟩
        · intro _
          trivial
      | some r =>
        simp only [getExchangeRate, hl]
        constructor
        · intro hcontra
          exact absurd hcontra (by simp)
        · rintro (hcontra | ⟨rates', hr, hn⟩)
          · exact absurd hcontra (by simp)
          · injection hr with hr'
            subst hr'
            rw [hl] at hn
            exact absurd hn (by simp)

/-- C7 witness: a rate table without the configured currency makes
Update return the error outcome with the state untouched. -/
theorem C7_update_failure_witness :
    update 2 (.ok [("eur", (3 : ℚ))]) "usd" initialState
      = .err initialState :=
  (C7_update_failure 2 (.ok [("eur", (3 : ℚ))]) "usd" initialState
    initialState).1.mpr ⟨rfl, by simp [getExchangeRate, List.lookup]⟩

/-- C9: when the frequency exceeds the 48-hour window the derived
capacity is zero and the first refresh on a fresh averager appends its
sample, immediately evicts it, and panics dividing by the zero buffer
length; with a positive frequency within the window every refresh takes
the division branch safely. -/
theorem C9_div_by_zero_reachable (frequency : ℕ) (r : Decimal)
    (hfreq : window < frequency) :
    maxRates frequency = 0
    ∧ updateWith (maxRates frequency) (.ok r) initialState
        = .panic initialState
    ∧ ∀ (f : ℕ), 0 < f → f ≤ window →
        ∀ (s : AveragerState) (r' : Decimal),
          ∃ s', updateWith (maxRates f) (.ok r') s = .ok r' s' := by
  have h0 : maxRates frequency = 0 := Nat.div_eq_of_lt hfreq
  refine ⟨h0, ?_, ?_⟩
  · rw [h0]
    rfl
  · intro f hf hfw s r'
    have hcap : 1 ≤ maxRates f := (Nat.one_le_div_iff hf).mpr hfw
    exact ⟨_, updateWith_ok_total (maxRates f) hcap s r'⟩

/-- C9 witness: one nanosecond beyond the window gives capacity zero,
and the first refresh on a fresh averager panics. -/
theorem C9_div_by_zero_reachable_witness :
    updateWith (maxRates 172800000000001) (.ok (1 : ℚ)) initialState
      = .panic initialState :=
  (C9_div_by_zero_reachable 172800000000001 1 (by norm_num [window])).2.1

/-- C10: a freshly constructed Averager reports a zero rate before any
successful refresh, and keeps reporting zero after a failed refresh. -/
theorem C10_initial_rate_zero :
    Rate initialState = 0
    ∧ ∀ (m : ℕ) (api : Except Unit (List (String × Decimal)))
        (currency : String) (s' : AveragerState),
        update m api currency initialState = .err s' → Rate s' = 0 := by
  constructor
  · rfl
  · intro m api currency s' h
    obtain ⟨hs, -⟩ :=
      (updateWith_err_iff m (getExchangeRate api currency)
        initialState s').mp h
    rw [hs]
    rfl

/-- C10 witness: after a failed refresh on a fresh averager the rate
read is still zero. -/
theorem C10_initial_rate_zero_witness :
    Rate initialState = 0 :=
  C10_initial_rate_zero.2 1 (.error ()) "usd" initialState rfl

/-- C4 counterexample: with two hosts and the first endpoint call
failing, the round returns at the first failure and the second host's
update call is never made — the remaining endpoints are not
processed. -/
theorem C4_counterexample :
    updateHostsLoop
        (fun h => if h.address = "h1" then .error "boom" else .ok ())
        [⟨"h1", "p1"⟩, ⟨"h2", "p2"⟩]
      = (.error ("h1", "boom"), [⟨"h1", "p1"⟩])
    ∧ (updateHostsLoop
        (fun h => if h.address = "h1" then .error "boom" else .ok ())
        [⟨"h1", "p1"⟩, ⟨"h2", "p2"⟩]).2
        ≠ [⟨"h1", "p1"⟩, ⟨"h2", "p2"⟩] := by
  constructor
  · simp [updateHostsLoop]
  · simp [updateHostsLoop]

/-- C4 (amended): a failing endpoint call aborts the round at that
endpoint: the hosts before it are all processed, it is the last host
called, the hosts after it are never called, and the round is reported
failed with that host's address and wrapped error. -/
theorem C4_abort_on_first_failure (call : Host → Except String Unit)
    (pre : List Host) (h : Host) (rest : List Host) (e : String)
    (hpre : ∀ x ∈ pre, call x = .ok ())
    (hfail : call h = .error e) :
    updateHostsLoop call (pre ++ h :: rest)
      = (.error (h.address, e), pre ++ [h]) := by
  revert hpre
  induction pre with
  | nil =>
    intro _
    simp [updateHostsLoop, hfail]
  | cons x xs ih =>
    intro hpre
    have hx : call x = .ok () := hpre x (by simp)
    have ih' := ih (fun y hy => hpre y (by simp [hy]))
    simp only [List.cons_append]
    simp [updateHostsLoop, hx, ih']

/-- C4 amended witness: the host before the failure is processed, the
failing host is the last one called, and the later host is skipped. -/
theorem C4_abort_on_first_failure_witness :
    updateHostsLoop
        (fun h => if h.address = "good" then .ok () else .error "down")
        [⟨"good", "p"⟩, ⟨"bad", "p"⟩, ⟨"later", "p"⟩]
      = (.error ("bad", "down"), [⟨"good", "p"⟩, ⟨"bad", "p"⟩]) :=
  C4_abort_on_first_failure
    (fun h => if h.address = "good" then .ok () else .error "down")
    [⟨"good", "p"⟩] ⟨"bad", "p"⟩ [⟨"later", "p"⟩] "down"
    (by intro x hx; rw [List.mem_singleton] at hx; subst hx; simp)
    (by simp)

theorem convertToCurrency_neg_one : convertToCurrency (-1) 1 = none := by
  have hq : ((-1 : ℚ)) / 1 * 10 ^ 24 = -(10 ^ 24) := by norm_num
  have hround : roundHalfAwayFromZero ((-1 : ℚ) / 1 * 10 ^ 24)
      = -(10 ^ 24) := by
    rw [hq, roundHalfAwayFromZero, if_neg (by norm_num)]
    norm_num
  unfold convertToCurrency ParseCurrency
  rw [hround, if_neg (by norm_num)]

theorem hostPrices_neg_storage : hostPrices ⟨-1, 1, 1⟩ 1 = none := by
  unfold hostPrices
  simp only [convertToCurrency_neg_one]

/-- C5 counterexample: a conversion failure — here a negative storage
target — makes the round panic, terminating the process, instead of
surfacing an error from the round. -/
theorem C5_counterexample :
    convertToCurrency (-1) 1 = none
    ∧ updateHosts (fun _ => .ok ()) [] ⟨-1, 1, 1⟩ 1
        = RoundOutcome.panicked := by
  refine ⟨convertToCurrency_neg_one, ?_⟩
  unfold updateHosts
  rw [hostPrices_neg_storage]

/-- C5 (amended): a currency-conversion failure is a panic that
terminates the process before any endpoint is contacted; it is not
surfaced as an error from the round. -/
theorem C5_conversion_failure_panics (call : Host → Except String Unit)
    (hosts : List Host) (target : Prices) (rate : Decimal)
    (hconv : hostPrices target rate = none) :
    updateHosts call hosts target rate = RoundOutcome.panicked := by
  unfold updateHosts
  rw [hconv]

/-- C5 amended witness: the negative storage target panics the round
even with a healthy endpoint configured. -/
theorem C5_conversion_failure_panics_witness :
    updateHosts (fun _ => .ok ()) [⟨"h1", "p"⟩] ⟨-1, 1, 1⟩ 1
      = RoundOutcome.panicked :=
  C5_conversion_failure_panics (fun _ => .ok ()) [⟨"h1", "p"⟩]
    ⟨-1, 1, 1⟩ 1 hostPrices_neg_storage

/-- Spec formula for the storage price: the fiat target divided by the
rate, scaled by the base-unit multiplier 10^24 and rounded to an
integer, then divided by the period-length divisor 4320 and the
byte-scale divisor 10^12. -/
def specStoragePrice (target rate : Decimal) : ℕ :=
  (roundHalfAwayFromZero (target / rate * 10 ^ 24)).toNat / 4320 / 10 ^ 12

/-- Spec formula for the ingress and egress prices: the fiat target
divided by the rate, scaled by the base-unit multiplier 10^24 and
rounded to an integer, then divided by the byte-scale divisor 10^12. -/
def specPerBytePrice (target rate : Decimal) : ℕ :=
  (roundHalfAwayFromZero (target / rate * 10 ^ 24)).toNat / 10 ^ 12

theorem roundHalfAwayFromZero_nonneg (q : ℚ) (hq : 0 ≤ q) :
    0 ≤ roundHalfAwayFromZero q := by
  rw [roundHalfAwayFromZero, if_pos hq]
  refine Int.le_floor.mpr ?_
  push_cast
  linarith

theorem convertToCurrency_eq (target rate : Decimal) (hr : 0 < rate)
    (ht : 0 ≤ target)
    (hlt : roundHalfAwayFromZero (target / rate * 10 ^ 24) < 2 ^ 128) :
    convertToCurrency target rate
      = some (roundHalfAwayFromZero (target / rate * 10 ^ 24)).toNat := by
  have hq : (0 : ℚ) ≤ target / rate * 10 ^ 24 :=
    mul_nonneg (div_nonneg ht hr.le) (by positivity)
  unfold convertToCurrency ParseCurrency
  rw [if_pos ⟨roundHalfAwayFromZero_nonneg _ hq, hlt⟩]

/-- C8: for a positive rate and non-negative fiat targets (whose scaled
conversions fit a 128-bit currency), the computed on-chain prices are
exactly the spec formulas: target over rate scaled by 10^24 and rounded
to an integer, with storage further floor-divided by 4320 and 10^12 and
ingress and egress each floor-divided by 10^12. -/
theorem C8_price_conversion (target : Prices) (rate : Decimal)
    (hr : 0 < rate) (hs : 0 ≤ target.storage) (hi : 0 ≤ target.ingress)
    (he : 0 ≤ target.egress)
    (hs' : roundHalfAwayFromZero (target.storage / rate * 10 ^ 24)
      < 2 ^ 128)
    (hi' : roundHalfAwayFromZero (target.ingress / rate * 10 ^ 24)
      < 2 ^ 128)
    (he' : roundHalfAwayFromZero (target.egress / rate * 10 ^ 24)
      < 2 ^ 128) :
    hostPrices target rate
      = some (specStoragePrice target.storage rate,
          specPerBytePrice target.ingress rate,
          specPerBytePrice target.egress rate) := by
  unfold hostPrices
  rw [convertToCurrency_eq target.storage rate hr hs hs',
    convertToCurrency_eq target.ingress rate hr hi hi',
    convertToCurrency_eq target.egress rate hr he he']
  rfl

/-- C8 witness: with rate 1 and fiat targets 1, the three prices are the
spec formulas evaluated there. -/
theorem C8_price_conversion_witness :
    hostPrices ⟨1, 1, 1⟩ 1
      = some (specStoragePrice 1 1, specPerBytePrice 1 1,
          specPerBytePrice 1 1) :=
  C8_price_conversion ⟨1, 1, 1⟩ 1 (by norm_num) (by norm_num)
    (by norm_num) (by norm_num)
    (by norm_num [roundHalfAwayFromZero])
    (by norm_num [roundHalfAwayFromZero])
    (by norm_num [roundHalfAwayFromZero])

end HostdPin
